import Mathlib

/-! # mlua: the Lua-for-MUMPS bridge (`src/mlua.c`)

A shallow embedding of the four entry points of `mlua.c`

* `mlua_open`            (lines 18-21)
* `mlua`                 (lines 24-44)
* `mlua_close`           (lines 46-48)
* `mlua_version_number`  (lines 51-53)

The Lua library is not part of the repository.  Its C API is a parameter of the
embedding (`LuaAPI`): one field per API function that `mlua.c` calls, acting on
the contents `L` of a `lua_State`.  The process-wide pointer `lua_State *Lua`
is an `Option Nat` (`none` is `NULL`), and the `lua_State`s allocated so far
are kept in a heap indexed by that pointer.  C operations that have no defined
result (a Lua call through a `NULL` or closed `lua_State*`, a store through a
`NULL` `outstr`, `snprintf("%s", NULL)`) are faults.
-/

namespace MLua

/-! ## The Lua C API, as called by `mlua.c` -/

/-- The Lua API functions used by `mlua.c`, as functions on the contents `L`
of a `lua_State`.  Status codes are C `int`s.  `lua_tostring` yields `none`
for the `NULL` it returns when the value has no string form; it also returns
the state, because it may convert a number in place. -/
structure LuaAPI (L : Type) where
  /-- The contents of the state returned by `luaL_newstate()`. -/
  luaL_newstate : L
  /-- Effect of `luaL_openlibs(L)`. -/
  luaL_openlibs : L → L
  /-- Status and effect of `luaL_loadbuffer(L, buff, sz, name)`; the `sz` bytes at `buff` are a list. -/
  luaL_loadbuffer : L → List Nat → String → Int × L
  /-- Status and effect of `lua_pcall(L, nargs, nresults, errfunc)`. -/
  lua_pcall : L → Int → Int → Int → Int × L
  /-- Result and effect of `lua_tostring(L, idx)`: the bytes of the string, or `none` for `NULL`. -/
  lua_tostring : L → Int → Option (List Nat) × L
  /-- Effect of `lua_pop(L, n)`. -/
  lua_pop : L → Int → L

/-! ## Process state -/

/-- One allocated `lua_State`: still usable, or released by `lua_close`. -/
inductive Slot (L : Type) where
  | live (s : L)
  | freed
  deriving DecidableEq, Repr

/-- A call into the Lua library that was carried out, with the `lua_State*` it was given. -/
inductive Call where
  | luaL_newstate (h : Nat)
  | luaL_openlibs (h : Nat)
  | luaL_loadbuffer (h : Nat) (code : List Nat) (name : String)
  | lua_pcall (h : Nat) (nargs nresults errfunc : Int)
  | lua_tostring (h : Nat) (idx : Int)
  | lua_pop (h : Nat) (n : Int)
  | lua_close (h : Nat)
  deriving DecidableEq, Repr

/-- The state of the host process as far as `mlua.c` is concerned.
`Lua` is the global of line 16; `heap` holds every `lua_State` created so far
(the pointer is the index); `stderr` collects what was printed on the error
stream; `trace` lists the Lua library calls made, in order. -/
structure Process (L : Type) where
  Lua : Option Nat
  heap : List (Slot L)
  stderr : List String
  trace : List Call

/-- The process at start-up: `lua_State *Lua = NULL;` (line 16), nothing allocated. -/
def Process.init {L : Type} : Process L := ⟨none, [], [], []⟩

/-- Operations without a defined result. -/
inductive Fault where
  /-- The named Lua function was called with `NULL` as its `lua_State*`. -/
  | nullState (fn : String)
  /-- The named Lua function was called with a `lua_State*` already given to `lua_close`. -/
  | freedState (fn : String) (h : Nat)
  /-- The named Lua function was called with a pointer that was never allocated. -/
  | wildState (fn : String) (h : Nat)
  /-- A store `outstr[0] = ...` with `outstr == NULL`. -/
  | nullStore
  /-- The call `snprintf(..., "%s", NULL)`. -/
  | nullString
  deriving DecidableEq, Repr

/-- A computation of the bridge: a value, or a fault together with the process
state at the faulting operation. -/
abbrev Exec (L : Type) (α : Type) := Except (Fault × Process L) α

/-- Memory reachable from a `gtm_char_t *`: the byte at each offset. -/
abbrev Buffer := Nat → Nat

/-- What `mlua` hands back: the returned `gtm_status_t`, the output buffer
(`none` when `outstr` is `NULL`) and the process state. -/
structure Ret (L : Type) where
  status : Int
  outstr : Option Buffer
  proc : Process L

section
variable {L : Type}

/-- Dereference the global `Lua` for a call of the Lua function `fn`. -/
def Process.deref (fn : String) (p : Process L) : Exec L (Nat × L) :=
  match p.Lua with
  | none => .error (Fault.nullState fn, p)
  | some h =>
    match p.heap[h]? with
    | some (Slot.live s) => .ok (h, s)
    | some Slot.freed => .error (Fault.freedState fn h, p)
    | none => .error (Fault.wildState fn h, p)

/-- Write back the contents of `lua_State` number `h` and record the call. -/
def Process.commit (p : Process L) (h : Nat) (s : L) (c : Call) : Process L :=
  ⟨p.Lua, p.heap.set h (Slot.live s), p.stderr, p.trace ++ [c]⟩

/-- The statement `Lua = luaL_newstate();` (allocation is taken to succeed). -/
def assign_newstate (api : LuaAPI L) (p : Process L) : Process L :=
  ⟨some p.heap.length, p.heap ++ [Slot.live api.luaL_newstate], p.stderr,
    p.trace ++ [Call.luaL_newstate p.heap.length]⟩

/-- The call `luaL_openlibs(Lua)`. -/
def luaL_openlibs (api : LuaAPI L) (p : Process L) : Exec L (Process L) := do
  let (h, s) ← p.deref "luaL_openlibs"
  pure (p.commit h (api.luaL_openlibs s) (Call.luaL_openlibs h))

/-- The call `luaL_loadbuffer(Lua, buff, sz, name)`. -/
def luaL_loadbuffer (api : LuaAPI L) (code : List Nat) (name : String) (p : Process L) :
    Exec L (Int × Process L) := do
  let (h, s) ← p.deref "luaL_loadbuffer"
  let r := api.luaL_loadbuffer s code name
  pure (r.1, p.commit h r.2 (Call.luaL_loadbuffer h code name))

/-- The call `lua_pcall(Lua, nargs, nresults, errfunc)`. -/
def lua_pcall (api : LuaAPI L) (nargs nresults errfunc : Int) (p : Process L) :
    Exec L (Int × Process L) := do
  let (h, s) ← p.deref "lua_pcall"
  let r := api.lua_pcall s nargs nresults errfunc
  pure (r.1, p.commit h r.2 (Call.lua_pcall h nargs nresults errfunc))

/-- The call `lua_tostring(Lua, idx)`. -/
def lua_tostring (api : LuaAPI L) (idx : Int) (p : Process L) :
    Exec L (Option (List Nat) × Process L) := do
  let (h, s) ← p.deref "lua_tostring"
  let r := api.lua_tostring s idx
  pure (r.1, p.commit h r.2 (Call.lua_tostring h idx))

/-- The call `lua_pop(Lua, n)`. -/
def lua_pop (api : LuaAPI L) (n : Int) (p : Process L) : Exec L (Process L) := do
  let (h, s) ← p.deref "lua_pop"
  pure (p.commit h (api.lua_pop s n) (Call.lua_pop h n))

/-- The call `lua_close(Lua)`: the state is released; the global is not an argument
by reference and keeps its value. -/
def lua_close (p : Process L) : Exec L (Process L) := do
  let (h, _) ← p.deref "lua_close"
  pure ⟨p.Lua, p.heap.set h Slot.freed, p.stderr, p.trace ++ [Call.lua_close h]⟩

/-- The call `fprintf(stderr, msg)`. -/
def fprintf_stderr (msg : String) (p : Process L) : Process L :=
  ⟨p.Lua, p.heap, p.stderr ++ [msg], p.trace⟩

/-! ## Output buffer -/

/-- The store `outstr[i] = b`. -/
def store (outstr : Option Buffer) (i b : Nat) (p : Process L) : Exec L (Option Buffer) :=
  match outstr with
  | none => .error (Fault.nullStore, p)
  | some buf => .ok (some (Function.update buf i b))

/-- The characters a `%s` conversion reads from a `char*`: those before the first NUL. -/
def cstring (bytes : List Nat) : List Nat := bytes.takeWhile (fun b => b ≠ 0)

/-- The call `snprintf(buf, size, "%s", str)` for a non-`NULL` `str`: nothing is
written when `size` is 0; otherwise the first `size - 1` characters of the string
followed by a NUL. -/
def snprintf_s (buf : Buffer) (size : Nat) (str : List Nat) : Buffer :=
  if size = 0 then buf
  else
    let t := (cstring str).take (size - 1)
    fun i => if i < t.length then t.getD i 0 else if i = t.length then 0 else buf i

/-- The call `snprintf(buf, size, "%s", str)`, `str` possibly `NULL`. -/
def snprintf (buf : Buffer) (size : Nat) (str : Option (List Nat)) (p : Process L) :
    Exec L Buffer :=
  match str with
  | none => .error (Fault.nullString, p)
  | some bytes => .ok (snprintf_s buf size bytes)

/-! ## The entry points of `mlua.c` -/

/-- The function `void mlua_open(int _argc)`, lines 18-21. -/
def mlua_open (api : LuaAPI L) (_argc : Int) (p : Process L) : Exec L (Process L) :=
  luaL_openlibs api (assign_newstate api p)

/-- The function `gtm_status_t mlua(int argc, const gtm_string_t *code, gtm_char_t *outstr)`,
lines 24-44.
`code` is the list of the `code->length` bytes at `code->address`;
`OUTPUT_STRING_MAXIMUM_LENGTH` is the constant of `mlua.h`. -/
def mlua (api : LuaAPI L) (OUTPUT_STRING_MAXIMUM_LENGTH : Nat)
    (argc : Int) (code : List Nat) (outstr : Option Buffer) (p : Process L) : Exec L (Ret L) :=
  if argc < 1 then
    .ok ⟨-1, outstr, fprintf_stderr "\nNo Lua code string supplied" p⟩
  else do
    let p ← if p.Lua = none then mlua_open api 0 p else pure p
    let args : Int := 0
    let results : Int := 0
    let error_handler : Int := 0
    -- int error = luaL_loadbuffer(...) || lua_pcall(...);
    let (loaded, p) ← luaL_loadbuffer api code "mlua(code)" p
    let (error, p) ←
      if loaded ≠ 0 then (pure ((1 : Int), p) : Exec L (Int × Process L))
      else do
        let (called, p) ← lua_pcall api args results error_handler p
        pure (if called ≠ 0 then (1 : Int) else 0, p)
    let outstr ← if argc ≥ 2 then store outstr 0 0 p else pure outstr
    if error ≠ 0 then
      let (outstr, p) ←
        match (if argc ≥ 2 then outstr else none) with
        | some buf => do
          let (msg, p) ← lua_tostring api (-1) p
          let buf ← snprintf buf OUTPUT_STRING_MAXIMUM_LENGTH msg p
          pure (some buf, p)
        | none => (pure (outstr, p) : Exec L (Option Buffer × Process L))
      let p ← lua_pop api 1 p
      pure ⟨error, outstr, p⟩
    else
      pure ⟨error, outstr, p⟩

/-- The function `void mlua_close(int _argc)`, lines 46-48. -/
def mlua_close (_argc : Int) (p : Process L) : Exec L (Process L) :=
  lua_close p

/-- The function `ydb_int_t mlua_version_number(int _argc)`, lines 51-53; `MLUA_VERSION_NUMBER`
is the constant of `mlua.h`.  The process state is passed through. -/
def mlua_version_number (MLUA_VERSION_NUMBER : Int) (_argc : Int) (p : Process L) :
    Int × Process L :=
  (MLUA_VERSION_NUMBER, p)

end

/-! ## Reading the model -/

section
variable {L : Type}

/-- The session is open: the global `Lua` points at the live state `s`, number `h`. -/
def Process.Open (p : Process L) (h : Nat) (s : L) : Prop :=
  p.Lua = some h ∧ p.heap[h]? = some (Slot.live s)

/-- The interpreter state on which the next `mlua` call compiles its code: the
state `Lua` points at, or, when `Lua` is `NULL`, the state `mlua_open` creates.
There is none when `Lua` points at a released state. -/
def compileState (api : LuaAPI L) (p : Process L) : Option L :=
  match p.Lua with
  | none => some (api.luaL_openlibs api.luaL_newstate)
  | some h =>
    match p.heap[h]? with
    | some (Slot.live s) => some s
    | _ => none

/-- The process state in which a computation ended, returned or faulted. -/
def finalProc : Exec L (Ret L) → Process L
  | .ok r => r.proc
  | .error (_, q) => q

/-- The status a computation returned, if it returned. -/
def statusOf : Exec L (Ret L) → Option Int
  | .ok r => some r.status
  | .error _ => none

/-- The fault a computation ended in, if it did. -/
def faultOf {α : Type} : Exec L α → Option Fault
  | .ok _ => none
  | .error (f, _) => some f

/-- The first `n` bytes of the output buffer a computation returned. -/
def outBytes (n : Nat) : Exec L (Ret L) → Option (List Nat)
  | .ok r => r.outstr.map (fun b => (List.range n).map b)
  | .error _ => none

/-- The buffer at `buf` holds the NUL-terminated string `str`: the characters of
`str`, none of them NUL, followed by a NUL. -/
def HoldsCString (buf : Buffer) (str : List Nat) : Prop :=
  (∀ i, i < str.length → buf i = str.getD i 0 ∧ str.getD i 0 ≠ 0) ∧ buf str.length = 0

end


/-! ## Vocabulary of the statements -/

section
variable {L : Type}

/-- The global `Lua` points into the heap. -/
def Process.Valid (p : Process L) (h : Nat) : Prop := p.Lua = some h ∧ h < p.heap.length

/-- The process state after `mlua_open`: a new `lua_State`, number `p.heap.length`,
holding a fresh state with the libraries loaded, and `Lua` pointing at it. -/
def opened (api : LuaAPI L) (p : Process L) : Process L :=
  (assign_newstate api p).commit p.heap.length (api.luaL_openlibs api.luaL_newstate)
    (Call.luaL_openlibs p.heap.length)

/-- The value of `luaL_loadbuffer(...) || lua_pcall(...)` (lines 33-34) on the
state `s`, with the state the interpreter is left in: `lua_pcall` is evaluated
only when the loader returned 0, and the value of `||` is 0 or 1. -/
def runChunk (api : LuaAPI L) (s : L) (code : List Nat) : Int × L :=
  let ld := api.luaL_loadbuffer s code "mlua(code)"
  if ld.1 ≠ 0 then (1, ld.2)
  else
    let pc := api.lua_pcall ld.2 0 0 0
    (if pc.1 ≠ 0 then 1 else 0, pc.2)

/-- The process state after lines 33-34 of a call on the open session `p`,
whose handle `h` designates the state `s`. -/
def afterChunk (api : LuaAPI L) (p : Process L) (h : Nat) (s : L) (code : List Nat) : Process L :=
  let ld := api.luaL_loadbuffer s code "mlua(code)"
  let p1 := p.commit h ld.2 (Call.luaL_loadbuffer h code "mlua(code)")
  if ld.1 ≠ 0 then p1
  else p1.commit h (api.lua_pcall ld.2 0 0 0).2 (Call.lua_pcall h 0 0 0)

/-- Lines 35-43 of `mlua`, run on the process state `q` with `error` as computed
by lines 33-34. -/
def finish (api : LuaAPI L) (M : Nat) (argc : Int) (outstr : Option Buffer) (error : Int)
    (q : Process L) : Exec L (Ret L) := do
  let outstr ← if argc ≥ 2 then store outstr 0 0 q else pure outstr
  if error ≠ 0 then
    let (outstr, p) ←
      match (if argc ≥ 2 then outstr else none) with
      | some buf => do
        let (msg, p) ← lua_tostring api (-1) q
        let buf ← snprintf buf M msg p
        pure (some buf, p)
      | none => (pure (outstr, q) : Exec L (Option Buffer × Process L))
    let p ← lua_pop api 1 p
    pure ⟨error, outstr, p⟩
  else
    pure ⟨error, outstr, q⟩

/-- Running `code` on the state `s` fails and leaves the interpreter in state
`e`, the error value on top of its stack: either `luaL_loadbuffer` returns a
nonzero code, or it returns 0 and `lua_pcall` returns a nonzero code. -/
def FailsLeaving (api : LuaAPI L) (s : L) (code : List Nat) (e : L) : Prop :=
  ((api.luaL_loadbuffer s code "mlua(code)").1 ≠ 0 ∧
      e = (api.luaL_loadbuffer s code "mlua(code)").2) ∨
    ((api.luaL_loadbuffer s code "mlua(code)").1 = 0 ∧
      (api.lua_pcall (api.luaL_loadbuffer s code "mlua(code)").2 0 0 0).1 ≠ 0 ∧
      e = (api.lua_pcall (api.luaL_loadbuffer s code "mlua(code)").2 0 0 0).2)

/-- The call has defined behaviour on the state `s` it compiles on: when
`argc >= 2` the pointer `outstr` is not `NULL` (line 36 stores through it), and
when in addition the code fails, `lua_tostring` does not hand `NULL` to the
`%s` of line 39. -/
def Defined (api : LuaAPI L) (argc : Int) (outstr : Option Buffer) (s : L) (code : List Nat) :
    Prop :=
  2 ≤ argc → outstr ≠ none ∧
    ((runChunk api s code).1 ≠ 0 → (api.lua_tostring (runChunk api s code).2 (-1)).1 ≠ none)

/-- The interpreter state a returning call leaves behind, from the state `s` it
compiled on: the state after lines 33-34, and on failure after the
`lua_tostring` of line 39 (when `argc >= 2`) and the `lua_pop` of line 41. -/
def stateAfter (api : LuaAPI L) (argc : Int) (s : L) (code : List Nat) : L :=
  let r := runChunk api s code
  if r.1 = 0 then r.2
  else if 2 ≤ argc then api.lua_pop (api.lua_tostring r.2 (-1)).2 1
  else api.lua_pop r.2 1

/-- The arguments of one call of `mlua`. -/
structure Invocation where
  argc : Int
  code : List Nat
  outstr : Option Buffer

/-- Every call of the sequence has `argc >= 1` and defined behaviour on the
state it finds, starting from `s`. -/
def DefinedSeq (api : LuaAPI L) : List Invocation → L → Prop
  | [], _ => True
  | c :: cs, s =>
    1 ≤ c.argc ∧ Defined api c.argc c.outstr s c.code ∧
      DefinedSeq api cs (stateAfter api c.argc s c.code)

/-- A call of an entry point that creates or uses the session. -/
inductive Op where
  | opening (argc : Int)
  | execute (argc : Int) (code : List Nat) (outstr : Option Buffer)

/-- Carry out one call. -/
def step (api : LuaAPI L) (M : Nat) : Op → Process L → Exec L (Process L)
  | Op.opening argc, p => mlua_open api argc p
  | Op.execute argc code outstr, p => do
    let r ← mlua api M argc code outstr p
    pure r.proc

/-- Carry out a sequence of calls. -/
def runOps (api : LuaAPI L) (M : Nat) : List Op → Process L → Exec L (Process L)
  | [], p => .ok p
  | op :: ops, p => do
    let q ← step api M op p
    runOps api M ops q

end

/-! ## Deciding the vocabulary -/

section
variable {L : Type}

/-- Whether the session is open on `s` can be computed. -/
instance Process.decidableOpen [DecidableEq L] (p : Process L) (h : Nat) (s : L) :
    Decidable (p.Open h s) :=
  inferInstanceAs (Decidable (p.Lua = some h ∧ p.heap[h]? = some (Slot.live s)))

/-- Whether `Lua` points into the heap can be computed. -/
instance Process.decidableValid (p : Process L) (h : Nat) : Decidable (p.Valid h) :=
  inferInstanceAs (Decidable (p.Lua = some h ∧ h < p.heap.length))

/-- Whether a buffer holds a given string can be computed. -/
instance decidableHoldsCString (buf : Buffer) (str : List Nat) :
    Decidable (HoldsCString buf str) :=
  inferInstanceAs (Decidable
    ((∀ i, i < str.length → buf i = str.getD i 0 ∧ str.getD i 0 ≠ 0) ∧ buf str.length = 0))

/-- Whether running the code fails leaving `e` can be computed. -/
instance decidableFailsLeaving [DecidableEq L] (api : LuaAPI L) (s : L) (code : List Nat)
    (e : L) : Decidable (FailsLeaving api s code e) :=
  inferInstanceAs (Decidable
    (((api.luaL_loadbuffer s code "mlua(code)").1 ≠ 0 ∧
        e = (api.luaL_loadbuffer s code "mlua(code)").2) ∨
      ((api.luaL_loadbuffer s code "mlua(code)").1 = 0 ∧
        (api.lua_pcall (api.luaL_loadbuffer s code "mlua(code)").2 0 0 0).1 ≠ 0 ∧
        e = (api.lua_pcall (api.luaL_loadbuffer s code "mlua(code)").2 0 0 0).2)))

/-- Whether a call has defined behaviour can be computed. -/
instance decidableDefined (api : LuaAPI L) (argc : Int) (outstr : Option Buffer) (s : L)
    (code : List Nat) : Decidable (Defined api argc outstr s code) :=
  haveI : Decidable (outstr = none) := Option.decidable_eq_none
  inferInstanceAs (Decidable
    (2 ≤ argc → outstr ≠ none ∧
      ((runChunk api s code).1 ≠ 0 →
        (api.lua_tostring (runChunk api s code).2 (-1)).1 ≠ none)))

/-- Whether a sequence of calls has defined behaviour can be computed. -/
instance decidableDefinedSeq (api : LuaAPI L) :
    ∀ (calls : List Invocation) (s : L), Decidable (DefinedSeq api calls s)
  | [], _ => isTrue trivial
  | c :: cs, s =>
    haveI := decidableDefinedSeq api cs (stateAfter api c.argc s c.code)
    inferInstanceAs (Decidable
      (1 ≤ c.argc ∧ Defined api c.argc c.outstr s c.code ∧
        DefinedSeq api cs (stateAfter api c.argc s c.code)))

end


/-! ## A miniature interpreter

A small instance of `LuaAPI`, used to run the bridge on concrete inputs.  Its
language has four chunks: the empty chunk, `v=d` (a lower-case letter and a
digit), `error({})` and `error('...')`; anything else does not compile. -/

namespace Mini

/-- The bytes of an ASCII string. -/
def bytes (s : String) : List Nat := s.toList.map Char.toNat

/-- The chunks of the miniature language. -/
inductive Stmt where
  | skip
  | assign (v d : Nat)
  | raiseString (msg : List Nat)
  | raiseTable
  deriving DecidableEq, Repr

/-- Values on the evaluation stack. -/
inductive Value where
  | str (s : List Nat)
  | table
  | chunk (body : Stmt)
  deriving DecidableEq, Repr

/-- Contents of a miniature `lua_State`: the evaluation stack (top first), the
global variables (latest binding first) and whether the libraries are loaded. -/
structure State where
  stack : List Value
  globals : List (Nat × Nat)
  libs : Bool
  deriving DecidableEq, Repr

/-- The compiler: `v=d`, `error({})`, `error('...')` or the empty chunk. -/
def parse (code : List Nat) : Option Stmt :=
  match code with
  | [] => some Stmt.skip
  | [v, 61, d] =>
    if 97 ≤ v ∧ v ≤ 122 ∧ 48 ≤ d ∧ d ≤ 57 then some (Stmt.assign v (d - 48)) else none
  | 101 :: 114 :: 114 :: 111 :: 114 :: 40 :: arg =>
    match arg with
    | [123, 125, 41] => some Stmt.raiseTable
    | 39 :: rest =>
      match rest.reverse with
      | 41 :: 39 :: m => some (Stmt.raiseString m.reverse)
      | _ => none
    | _ => none
  | _ => none

/-- The value of global `v`, if set. -/
def State.global (s : State) (v : Nat) : Option Nat := (s.globals.lookup v)

/-- Load a chunk: push the compiled chunk and return 0 (`LUA_OK`), or push a
message and return 3 (`LUA_ERRSYNTAX`). -/
def loadbuffer (s : State) (code : List Nat) (_name : String) : Int × State :=
  match parse code with
  | some st => (0, { s with stack := Value.chunk st :: s.stack })
  | none => (3, { s with stack := Value.str (bytes "syntax error") :: s.stack })

/-- Call the chunk on top of the stack, without arguments or results: pop it and
return 0, or replace it by the raised value and return 2 (`LUA_ERRRUN`). -/
def pcall (s : State) (_nargs _nresults _errfunc : Int) : Int × State :=
  match s.stack with
  | Value.chunk Stmt.skip :: rest => (0, { s with stack := rest })
  | Value.chunk (Stmt.assign v d) :: rest =>
    (0, { s with stack := rest, globals := (v, d) :: s.globals })
  | Value.chunk (Stmt.raiseString msg) :: rest => (2, { s with stack := Value.str msg :: rest })
  | Value.chunk Stmt.raiseTable :: rest => (2, { s with stack := Value.table :: rest })
  | _ :: rest => (2, { s with stack := Value.str (bytes "attempt to call") :: rest })
  | [] => (2, { s with stack := [Value.str (bytes "attempt to call")] })

/-- The string at index -1 (the top), `none` when that value is not a string. -/
def tostring (s : State) (idx : Int) : Option (List Nat) × State :=
  if idx = -1 then
    match s.stack with
    | Value.str b :: _ => (some b, s)
    | _ => (none, s)
  else (none, s)

/-- Pop `n` values. -/
def pop (s : State) (n : Int) : State := { s with stack := s.stack.drop n.toNat }

/-- The miniature interpreter as an instance of the API. -/
def api : LuaAPI State where
  luaL_newstate := ⟨[], [], false⟩
  luaL_openlibs := fun s => { s with libs := true }
  luaL_loadbuffer := loadbuffer
  lua_pcall := pcall
  lua_tostring := tostring
  lua_pop := pop

/-- The miniature interpreter with a loader that, when the code does not compile,
pushes the empty string as its message (and still returns 3). -/
def mute : LuaAPI State :=
  { api with
    luaL_loadbuffer := fun s code _name =>
      match parse code with
      | some st => (0, { s with stack := Value.chunk st :: s.stack })
      | none => (3, { s with stack := Value.str [] :: s.stack }) }

/-- A buffer filled with the byte 7. -/
def sevens : Buffer := fun _ => 7

end Mini

/-! ## Running the wrappers on an open session -/

section
variable {L : Type}

theorem ok_bind {α β : Type} (a : α) (f : α → Exec L β) : (Except.ok a >>= f) = f a := rfl

theorem error_bind {α β : Type} (e : Fault × Process L) (f : α → Exec L β) :
    ((Except.error e : Exec L α) >>= f) = Except.error e := rfl

theorem pure_eq_ok {α : Type} (a : α) : (pure a : Exec L α) = Except.ok a := rfl

theorem open_valid {p : Process L} {h : Nat} {s : L} (ho : p.Open h s) : p.Valid h := by
  refine ⟨ho.1, ?_⟩
  by_contra hge
  have := ho.2
  rw [List.getElem?_eq_none (by omega)] at this
  cases this

theorem deref_of_open {p : Process L} {h : Nat} {s : L} (fn : String) (ho : p.Open h s) :
    p.deref fn = .ok (h, s) := by
  obtain ⟨h1, h2⟩ := ho
  simp [Process.deref, h1, h2]

theorem commit_valid (p : Process L) (h : Nat) (t : L) (c : Call) :
    (p.commit h t c).Valid h ↔ p.Valid h := by
  simp [Process.commit, Process.Valid]

theorem commit_open {p : Process L} {h : Nat} (hv : p.Valid h) (t : L) (c : Call) :
    (p.commit h t c).Open h t := by
  refine ⟨hv.1, ?_⟩
  simp [Process.commit, hv.2]

theorem assign_newstate_valid (api : LuaAPI L) (p : Process L) :
    (assign_newstate api p).Valid p.heap.length := by
  simp [Process.Valid, assign_newstate]

theorem mlua_open_eq (api : LuaAPI L) (argc : Int) (p : Process L) :
    mlua_open api argc p = .ok (opened api p) := by
  have : (assign_newstate api p).Open p.heap.length api.luaL_newstate := by
    simp [Process.Open, assign_newstate]
  simp only [mlua_open, luaL_openlibs, deref_of_open _ this, ok_bind, pure_eq_ok, opened]

theorem luaL_loadbuffer_of_open (api : LuaAPI L) (code : List Nat) (name : String)
    {p : Process L} {h : Nat} {s : L} (ho : p.Open h s) :
    luaL_loadbuffer api code name p = .ok ((api.luaL_loadbuffer s code name).1,
      p.commit h (api.luaL_loadbuffer s code name).2 (Call.luaL_loadbuffer h code name)) := by
  simp only [luaL_loadbuffer, deref_of_open _ ho, ok_bind, pure_eq_ok]

theorem lua_pcall_of_open (api : LuaAPI L) (a b c : Int)
    {p : Process L} {h : Nat} {s : L} (ho : p.Open h s) :
    lua_pcall api a b c p = .ok ((api.lua_pcall s a b c).1,
      p.commit h (api.lua_pcall s a b c).2 (Call.lua_pcall h a b c)) := by
  simp only [lua_pcall, deref_of_open _ ho, ok_bind, pure_eq_ok]

theorem lua_tostring_of_open (api : LuaAPI L) (idx : Int)
    {p : Process L} {h : Nat} {s : L} (ho : p.Open h s) :
    lua_tostring api idx p = .ok ((api.lua_tostring s idx).1,
      p.commit h (api.lua_tostring s idx).2 (Call.lua_tostring h idx)) := by
  simp only [lua_tostring, deref_of_open _ ho, ok_bind, pure_eq_ok]

theorem lua_pop_of_open (api : LuaAPI L) (n : Int)
    {p : Process L} {h : Nat} {s : L} (ho : p.Open h s) :
    lua_pop api n p = .ok (p.commit h (api.lua_pop s n) (Call.lua_pop h n)) := by
  simp only [lua_pop, deref_of_open _ ho, ok_bind, pure_eq_ok]

theorem afterChunk_open (api : LuaAPI L) {p : Process L} {h : Nat} {s : L} (code : List Nat)
    (ho : p.Open h s) : (afterChunk api p h s code).Open h (runChunk api s code).2 := by
  have hv := open_valid ho
  unfold afterChunk runChunk
  by_cases hl : (api.luaL_loadbuffer s code "mlua(code)").1 = 0
  · simp only [hl, ne_eq, not_true_eq_false, if_false]
    exact commit_open ((commit_valid _ _ _ _).mpr hv) _ _
  · simp only [hl, ne_eq, not_false_eq_true, if_true]
    exact commit_open hv _ _

/-- On an open session a call with `argc >= 1` runs lines 33-34 on the state the
session points at and then lines 35-43. -/
theorem mlua_of_open {api : LuaAPI L} {p : Process L} {h : Nat} {s : L}
    (M : Nat) {argc : Int} (code : List Nat) (outstr : Option Buffer)
    (ho : p.Open h s) (hargc : 1 ≤ argc) :
    mlua api M argc code outstr p =
      finish api M argc outstr (runChunk api s code).1 (afterChunk api p h s code) := by
  have hv := open_valid ho
  have h1 : ¬ argc < 1 := by omega
  have hsome : ¬ (some h = none) := by simp
  simp only [mlua, h1, if_false, ho.1, hsome, pure_eq_ok, ok_bind, luaL_loadbuffer_of_open _ _ _ ho]
  by_cases hl : (api.luaL_loadbuffer s code "mlua(code)").1 = 0
  · simp only [hl, ne_eq, not_true_eq_false, if_false, runChunk, afterChunk,
      lua_pcall_of_open api 0 0 0 (commit_open hv _ _), ok_bind, finish, pure_eq_ok]
  · simp only [hl, ne_eq, not_false_eq_true, if_true, runChunk, afterChunk, ok_bind, finish,
      pure_eq_ok]

end

section
variable {L : Type}

theorem finish_nullStore (api : LuaAPI L) (M : Nat) {argc : Int} (error : Int) (q : Process L)
    (h2 : 2 ≤ argc) : finish api M argc none error q = .error (Fault.nullStore, q) := by
  have h2' : argc ≥ 2 := h2
  simp only [finish, h2', if_true, store, error_bind]

theorem finish_success (api : LuaAPI L) (M : Nat) (argc : Int) (outstr : Option Buffer)
    (q : Process L) (hbuf : 2 ≤ argc → outstr ≠ none) :
    finish api M argc outstr 0 q =
      .ok ⟨0, if 2 ≤ argc then outstr.map (fun b => Function.update b 0 0) else outstr, q⟩ := by
  by_cases h2 : 2 ≤ argc
  · obtain ⟨b, rfl⟩ := Option.ne_none_iff_exists'.mp (hbuf h2)
    have h2' : argc ≥ 2 := h2
    simp only [finish, h2', h2, if_true, store, ok_bind, ne_eq, not_true_eq_false, if_false,
      pure_eq_ok, Option.map_some']
  · have h2' : ¬ argc ≥ 2 := h2
    simp only [finish, h2', h2, if_false, pure_eq_ok, ok_bind, ne_eq, not_true_eq_false]

theorem finish_failure_unbuffered (api : LuaAPI L) (M : Nat) {argc : Int}
    (outstr : Option Buffer) {error : Int} {q : Process L} {h : Nat} {t : L}
    (ho : q.Open h t) (he : error ≠ 0) (h2 : argc < 2) :
    finish api M argc outstr error q =
      .ok ⟨error, outstr, q.commit h (api.lua_pop t 1) (Call.lua_pop h 1)⟩ := by
  have h2' : ¬ argc ≥ 2 := by omega
  simp only [finish, h2', if_false, pure_eq_ok, ok_bind, he, ne_eq, not_false_eq_true, if_true,
    lua_pop_of_open api 1 ho]

theorem finish_failure_buffered (api : LuaAPI L) (M : Nat) {argc : Int}
    (buf : Buffer) {error : Int} {q : Process L} {h : Nat} {t : L}
    (ho : q.Open h t) (he : error ≠ 0) (h2 : 2 ≤ argc) :
    finish api M argc (some buf) error q =
      match (api.lua_tostring t (-1)).1 with
      | none => .error (Fault.nullString,
          q.commit h (api.lua_tostring t (-1)).2 (Call.lua_tostring h (-1)))
      | some msg => .ok ⟨error, some (snprintf_s (Function.update buf 0 0) M msg),
          (q.commit h (api.lua_tostring t (-1)).2 (Call.lua_tostring h (-1))).commit h
            (api.lua_pop (api.lua_tostring t (-1)).2 1) (Call.lua_pop h 1)⟩ := by
  have h2' : argc ≥ 2 := h2
  have hv := open_valid ho
  simp only [finish, h2', if_true, store, ok_bind, he, ne_eq, not_false_eq_true,
    lua_tostring_of_open api (-1) ho]
  cases hm : (api.lua_tostring t (-1)).1 with
  | none => simp only [snprintf, error_bind]
  | some msg =>
    simp only [snprintf, ok_bind, pure_eq_ok, lua_pop_of_open api 1 (commit_open hv _ _)]

end


section
variable {L : Type}

theorem opened_open (api : LuaAPI L) (p : Process L) :
    (opened api p).Open p.heap.length (api.luaL_openlibs api.luaL_newstate) :=
  commit_open (assign_newstate_valid api p) _ _

theorem opened_frame (api : LuaAPI L) (p : Process L) :
    (opened api p).Lua = some p.heap.length ∧
      (opened api p).heap = p.heap ++ [Slot.live (api.luaL_openlibs api.luaL_newstate)] ∧
      (opened api p).trace =
        p.trace ++ [Call.luaL_newstate p.heap.length, Call.luaL_openlibs p.heap.length] := by
  refine ⟨rfl, ?_, ?_⟩
  · simp [opened, assign_newstate, Process.commit]
  · simp [opened, assign_newstate, Process.commit]

theorem mlua_of_absent (api : LuaAPI L) (M : Nat) {argc : Int} (code : List Nat)
    (outstr : Option Buffer) {p : Process L} (hL : p.Lua = none) (hargc : 1 ≤ argc) :
    mlua api M argc code outstr p = mlua api M argc code outstr (opened api p) := by
  have h1 : ¬ argc < 1 := by omega
  have hq : (opened api p).Lua = some p.heap.length := (opened_open api p).1
  have hsome : ¬ (some p.heap.length = none) := by simp
  simp only [mlua, h1, if_false, hL, if_true, mlua_open_eq, ok_bind, hq, hsome, pure_eq_ok]

/-- A usable session (absent or open): the process on which the call runs after
line 30, its handle and the state the handle designates. -/
theorem mlua_session {api : LuaAPI L} (M : Nat) {argc : Int} (code : List Nat)
    (outstr : Option Buffer) {p : Process L} {s : L} (hargc : 1 ≤ argc)
    (hs : compileState api p = some s) :
    ∃ q h, q.Open h s ∧ mlua api M argc code outstr p = mlua api M argc code outstr q ∧
      ((p.Lua = some h ∧ q = p) ∨ (p.Lua = none ∧ q = opened api p ∧ h = p.heap.length)) := by
  unfold compileState at hs
  cases hL : p.Lua with
  | none =>
    rw [hL] at hs
    simp only [Option.some.injEq] at hs
    refine ⟨opened api p, p.heap.length, ?_, mlua_of_absent api M code outstr hL hargc,
      Or.inr ⟨rfl, rfl, rfl⟩⟩
    rw [← hs]
    exact opened_open api p
  | some h =>
    rw [hL] at hs
    refine ⟨p, h, ⟨hL, ?_⟩, rfl, Or.inl ⟨rfl, rfl⟩⟩
    cases hh : p.heap[h]? with
    | none => simp [hh] at hs
    | some sl =>
      cases sl with
      | freed => simp [hh] at hs
      | live t =>
        simp only [hh, Option.some.injEq] at hs
        rw [hs]

theorem compileState_of_open {api : LuaAPI L} {p : Process L} {h : Nat} {s : L}
    (ho : p.Open h s) : compileState api p = some s := by
  simp only [compileState, ho.1, ho.2]

/-- A call with `argc >= 1` and defined behaviour on a usable session returns:
its status is the value of lines 33-34, and the session handle designates
`stateAfter`. -/
theorem mlua_returns {api : LuaAPI L} (M : Nat) {argc : Int} {code : List Nat}
    {outstr : Option Buffer} {p : Process L} {s : L} (hargc : 1 ≤ argc)
    (hs : compileState api p = some s) (hdef : Defined api argc outstr s code) :
    ∃ r h, mlua api M argc code outstr p = .ok r ∧ r.status = (runChunk api s code).1 ∧
      r.proc.Open h (stateAfter api argc s code) ∧
      (p.Lua = some h ∨ (p.Lua = none ∧ h = p.heap.length)) ∧
      r.proc.heap.length = (if p.Lua = none then p.heap.length + 1 else p.heap.length) := by
  obtain ⟨q, h, ho, hq, hcase⟩ := mlua_session M code outstr hargc hs
  have hoc := afterChunk_open api code ho
  have hvc := open_valid hoc
  have hlen : (afterChunk api q h s code).heap.length = q.heap.length := by
    simp only [afterChunk]
    split_ifs <;> simp [Process.commit]
  have hqlen : q.heap.length = (if p.Lua = none then p.heap.length + 1 else p.heap.length) := by
    rcases hcase with ⟨hp, rfl⟩ | ⟨hp, rfl, _⟩
    · simp [hp]
    · simp [hp, opened, assign_newstate, Process.commit]
  have hh : p.Lua = some h ∨ (p.Lua = none ∧ h = p.heap.length) := by
    rcases hcase with ⟨hp, _⟩ | ⟨hp, _, hh⟩
    · exact Or.inl hp
    · exact Or.inr ⟨hp, hh⟩
  rw [hq, mlua_of_open M code outstr ho hargc]
  by_cases he : (runChunk api s code).1 = 0
  · have hbuf : 2 ≤ argc → outstr ≠ none := fun h2 => (hdef h2).1
    rw [he, finish_success api M argc outstr _ hbuf]
    refine ⟨_, h, rfl, rfl, ?_, hh, ?_⟩
    · simpa only [stateAfter, he, if_true] using hoc
    · simp only [hlen, hqlen]
  · by_cases h2 : 2 ≤ argc
    · obtain ⟨hbuf, hstr⟩ := hdef h2
      obtain ⟨buf, rfl⟩ := Option.ne_none_iff_exists'.mp hbuf
      obtain ⟨msg, hmsg⟩ := Option.ne_none_iff_exists'.mp (hstr he)
      rw [finish_failure_buffered api M buf hoc he h2]
      simp only [hmsg]
      refine ⟨_, h, rfl, rfl, ?_, hh, ?_⟩
      · simp only [stateAfter, he, if_false, h2, if_true]
        exact commit_open ((commit_valid _ _ _ _).mpr hvc) _ _
      · simp only [Process.commit, List.length_set, hlen, hqlen]
    · rw [finish_failure_unbuffered api M outstr hoc he (by omega)]
      refine ⟨_, h, rfl, rfl, ?_, hh, ?_⟩
      · simp only [stateAfter, he, if_false, h2]
        exact commit_open hvc _ _
      · simp only [Process.commit, List.length_set, hlen, hqlen]

end


/-! ## The claims -/

section
variable {L : Type}

/-- C1: a call of `mlua` with `argc < 1` returns -1 whatever the session state,
the code and the output buffer; no Lua library call is made (the trace and the
heap of interpreter states are as before, so nothing is created, compiled or
called), the handle `Lua` keeps its value (`NULL` stays `NULL`), the output
buffer is unchanged, and the diagnostic goes to `stderr`. -/
theorem mlua_without_code_is_usage_error (api : LuaAPI L) (M : Nat) (argc : Int)
    (code : List Nat) (outstr : Option Buffer) (p : Process L) (hargc : argc < 1) :
    ∃ r, mlua api M argc code outstr p = .ok r ∧ r.status = -1 ∧ r.proc.Lua = p.Lua ∧
      r.proc.heap = p.heap ∧ r.proc.trace = p.trace ∧ r.outstr = outstr ∧
      r.proc.stderr = p.stderr ++ ["\nNo Lua code string supplied"] := by
  refine ⟨⟨-1, outstr, fprintf_stderr "\nNo Lua code string supplied" p⟩, ?_, rfl, rfl, rfl,
    rfl, rfl, rfl⟩
  simp only [mlua, hargc, if_true]

/-- C1 at `argc = 0` on the start-up process, with a buffer supplied. -/
theorem mlua_without_code_is_usage_error_witness :
    (0 : Int) < 1 ∧
    ∃ r, mlua Mini.api 16 0 (Mini.bytes "x=1") (some Mini.sevens) Process.init = .ok r ∧
      r.status = -1 ∧ r.proc.Lua = (Process.init : Process Mini.State).Lua ∧
      r.proc.heap = (Process.init : Process Mini.State).heap ∧
      r.proc.trace = (Process.init : Process Mini.State).trace ∧
      r.outstr = some Mini.sevens ∧
      r.proc.stderr =
        (Process.init : Process Mini.State).stderr ++ ["\nNo Lua code string supplied"] :=
  ⟨by decide,
    mlua_without_code_is_usage_error Mini.api 16 0 (Mini.bytes "x=1") (some Mini.sevens)
      Process.init (by decide)⟩

/-- C8: `mlua_version_number` returns the constant `MLUA_VERSION_NUMBER` for every
argument count and every process state, leaves the process state (handle and
interpreter states) as it was, and any two calls return equal values. -/
theorem mlua_version_number_is_constant (V : Int) (argc1 argc2 : Int) (p1 p2 : Process L) :
    (mlua_version_number V argc1 p1).1 = V ∧ (mlua_version_number V argc1 p1).2 = p1 ∧
      (mlua_version_number V argc1 p1).1 = (mlua_version_number V argc2 p2).1 :=
  ⟨rfl, rfl, rfl⟩

/-- C9: on an open session `mlua_close` releases the interpreter state and leaves
the global `Lua` with the value it had; a following `mlua` call with `argc >= 1`
therefore skips line 30 and hands the released `lua_State*` to
`luaL_loadbuffer`: the process state at that point is the one `mlua_close` left,
with no interpreter created. -/
theorem mlua_close_keeps_handle (api : LuaAPI L) (M : Nat) (argc0 : Int) (p : Process L)
    (h : Nat) (s : L) (ho : p.Open h s) :
    ∃ q, mlua_close argc0 p = .ok q ∧ q.Lua = p.Lua ∧ q.Lua = some h ∧
      q.heap[h]? = some Slot.freed ∧ q.heap.length = p.heap.length ∧
      q.trace = p.trace ++ [Call.lua_close h] ∧
      ∀ (argc : Int) (code : List Nat) (outstr : Option Buffer), 1 ≤ argc →
        mlua api M argc code outstr q = .error (Fault.freedState "luaL_loadbuffer" h, q) := by
  have hv := open_valid ho
  refine ⟨⟨p.Lua, p.heap.set h Slot.freed, p.stderr, p.trace ++ [Call.lua_close h]⟩, ?_, rfl,
    ho.1, ?_, ?_, rfl, ?_⟩
  · simp only [mlua_close, lua_close, deref_of_open _ ho, ok_bind, pure_eq_ok]
  · simp [hv.2]
  · simp
  · intro argc code outstr hargc
    have h1 : ¬ argc < 1 := by omega
    have hsome : ¬ (some h = none) := by simp
    have hfreed : (p.heap.set h Slot.freed)[h]? = some Slot.freed := by simp [hv.2]
    simp only [mlua, h1, if_false, ho.1, hsome, pure_eq_ok, ok_bind, luaL_loadbuffer,
      Process.deref, hfreed, error_bind]

/-- C9 on the miniature interpreter: open, close, then execute `x=1`. -/
theorem mlua_close_keeps_handle_witness :
    (opened Mini.api Process.init).Open 0 (Mini.api.luaL_openlibs Mini.api.luaL_newstate) ∧
    ∃ q, mlua_close 0 (opened Mini.api Process.init) = .ok q ∧
      q.Lua = (opened Mini.api Process.init).Lua ∧ q.Lua = some 0 ∧
      q.heap[0]? = some Slot.freed ∧ q.heap.length = (opened Mini.api Process.init).heap.length ∧
      q.trace = (opened Mini.api Process.init).trace ++ [Call.lua_close 0] ∧
      ∀ (argc : Int) (code : List Nat) (outstr : Option Buffer), 1 ≤ argc →
        mlua Mini.api 16 argc code outstr q =
          .error (Fault.freedState "luaL_loadbuffer" 0, q) :=
  ⟨opened_open Mini.api Process.init,
    mlua_close_keeps_handle Mini.api 16 0 (opened Mini.api Process.init) 0 _
      (opened_open Mini.api Process.init)⟩

/-- C10: with `argc >= 2` and `outstr == NULL` the call does not return a status:
after lines 33-34 have run, line 36 stores through the `NULL` pointer (the guard
of line 38 tests `outstr`, the one of line 35 does not). -/
theorem mlua_null_outstr_is_stored_through (api : LuaAPI L) (M : Nat) (argc : Int)
    (code : List Nat) (p : Process L) (s : L) (hargc : 2 ≤ argc)
    (hs : compileState api p = some s) :
    ∃ q, mlua api M argc code none p = .error (Fault.nullStore, q) ∧
      statusOf (mlua api M argc code none p) = none := by
  obtain ⟨q, h, ho, hq, _⟩ := mlua_session M code none (by omega : 1 ≤ argc) hs
  rw [hq, mlua_of_open M code none ho (by omega), finish_nullStore api M _ _ hargc]
  exact ⟨_, rfl, rfl⟩

/-- C10 at `argc = 2`, `outstr = NULL`, code `x=1`, on the start-up process. -/
theorem mlua_null_outstr_is_stored_through_witness :
    (2 : Int) ≤ 2 ∧
    compileState Mini.api Process.init = some (Mini.api.luaL_openlibs Mini.api.luaL_newstate) ∧
    ∃ q, mlua Mini.api 16 2 (Mini.bytes "x=1") none Process.init = .error (Fault.nullStore, q) ∧
      statusOf (mlua Mini.api 16 2 (Mini.bytes "x=1") none Process.init) = none :=
  ⟨by decide, rfl,
    mlua_null_outstr_is_stored_through Mini.api 16 2 (Mini.bytes "x=1") Process.init _
      (by decide) rfl⟩

/-- With `argc = 1` the output buffer is never touched, whether the code fails or not. -/
theorem mlua_one_argument_keeps_buffer (api : LuaAPI L) (M : Nat) (code : List Nat)
    (outstr : Option Buffer) (p : Process L) (s : L) (hs : compileState api p = some s) :
    ∃ r, mlua api M 1 code outstr p = .ok r ∧ r.outstr = outstr := by
  obtain ⟨q, h, ho, hq, _⟩ := mlua_session M code outstr (by omega : (1 : Int) ≤ 1) hs
  have hoc := afterChunk_open api code ho
  rw [hq, mlua_of_open M code outstr ho (by omega)]
  by_cases he : (runChunk api s code).1 = 0
  · rw [he, finish_success api M 1 outstr _ (by omega)]
    exact ⟨_, rfl, by simp⟩
  · rw [finish_failure_unbuffered api M outstr hoc he (by omega)]
    exact ⟨_, rfl, rfl⟩

end


section
variable {L : Type}

theorem runChunk_of_failsLeaving {api : LuaAPI L} {s e : L} {code : List Nat}
    (hf : FailsLeaving api s code e) : runChunk api s code = (1, e) := by
  rcases hf with ⟨hl, rfl⟩ | ⟨hl, hc, rfl⟩
  · simp only [runChunk, hl, ne_eq, not_false_eq_true, if_true]
  · simp only [runChunk, hl, hc, ne_eq, not_true_eq_false, not_false_eq_true, if_true, if_false]

theorem runChunk_of_success {api : LuaAPI L} {s : L} {code : List Nat}
    (hl : (api.luaL_loadbuffer s code "mlua(code)").1 = 0)
    (hc : (api.lua_pcall (api.luaL_loadbuffer s code "mlua(code)").2 0 0 0).1 = 0) :
    runChunk api s code = (0, (api.lua_pcall (api.luaL_loadbuffer s code "mlua(code)").2 0 0 0).2) := by
  simp only [runChunk, hl, hc, ne_eq, not_true_eq_false, if_false]

theorem cstring_ne_zero {bytes : List Nat} {n i : Nat} (hi : i < ((cstring bytes).take n).length) :
    ((cstring bytes).take n).getD i 0 ≠ 0 := by
  rw [List.getD_eq_getElem _ _ hi]
  have hmem : ((cstring bytes).take n)[i] ∈ cstring bytes :=
    List.mem_of_mem_take (List.getElem_mem hi)
  have := List.mem_takeWhile_imp hmem
  simpa using this

theorem snprintf_s_holds (buf : Buffer) {M : Nat} (hM : 1 ≤ M) (msg : List Nat) :
    HoldsCString (snprintf_s buf M msg) ((cstring msg).take (M - 1)) := by
  have hM0 : ¬ M = 0 := by omega
  refine ⟨fun i hi => ⟨?_, cstring_ne_zero hi⟩, ?_⟩
  · simp only [snprintf_s, hM0, if_false, hi, if_true]
  · simp only [snprintf_s, hM0, if_false, lt_irrefl, if_true]

theorem snprintf_s_holds_cleared (buf : Buffer) (M : Nat) (msg : List Nat) :
    HoldsCString (snprintf_s (Function.update buf 0 0) M msg) ((cstring msg).take (M - 1)) := by
  by_cases hM : 1 ≤ M
  · exact snprintf_s_holds _ hM msg
  · have hM0 : M = 0 := by omega
    subst hM0
    refine ⟨fun i hi => absurd hi (by simp), ?_⟩
    simp [snprintf_s]

theorem snprintf_s_bounded (buf : Buffer) (M : Nat) (msg : List Nat) (i : Nat) (hi : M ≤ i) :
    snprintf_s buf M msg i = buf i := by
  by_cases hM0 : M = 0
  · simp only [snprintf_s, hM0, if_true]
  · have hlen : ((cstring msg).take (M - 1)).length ≤ M - 1 := by
      rw [List.length_take]; exact Nat.min_le_left _ _
    have h1 : ¬ i < ((cstring msg).take (M - 1)).length := by omega
    have h2 : ¬ i = ((cstring msg).take (M - 1)).length := by omega
    simp only [snprintf_s, hM0, if_false, h1, h2]

/-- C2, as the code has it: when compilation or invocation fails in a call with
`argc >= 1` and defined behaviour, `mlua` returns 1, the value of the C
expression `luaL_loadbuffer(...) || lua_pcall(...)`, whatever nonzero code the
interpreter produced. -/
theorem mlua_failure_status_is_one (api : LuaAPI L) (M : Nat) (argc : Int) (code : List Nat)
    (outstr : Option Buffer) (p : Process L) (s e : L) (hargc : 1 ≤ argc)
    (hs : compileState api p = some s) (hfail : FailsLeaving api s code e)
    (hdef : Defined api argc outstr s code) :
    ∃ r, mlua api M argc code outstr p = .ok r ∧ r.status = 1 := by
  obtain ⟨r, _, hr, hst, _⟩ := mlua_returns M hargc hs hdef
  exact ⟨r, hr, by rw [hst, runChunk_of_failsLeaving hfail]⟩

/-- C3: a call with `argc >= 2` and a present output buffer whose code compiles
and runs without error returns 0 and leaves the buffer holding the empty string:
its first byte is NUL, whatever it held before; the other bytes are untouched. -/
theorem mlua_success_empties_buffer (api : LuaAPI L) (M : Nat) (argc : Int) (code : List Nat)
    (buf : Buffer) (p : Process L) (s : L) (hargc : 2 ≤ argc)
    (hs : compileState api p = some s)
    (hload : (api.luaL_loadbuffer s code "mlua(code)").1 = 0)
    (hcall : (api.lua_pcall (api.luaL_loadbuffer s code "mlua(code)").2 0 0 0).1 = 0) :
    ∃ r b, mlua api M argc code (some buf) p = .ok r ∧ r.status = 0 ∧ r.outstr = some b ∧
      b 0 = 0 ∧ HoldsCString b [] ∧ ∀ i, i ≠ 0 → b i = buf i := by
  obtain ⟨q, h, ho, hq, _⟩ := mlua_session M code (some buf) (by omega : 1 ≤ argc) hs
  have he : (runChunk api s code).1 = 0 := by rw [runChunk_of_success hload hcall]
  rw [hq, mlua_of_open M code (some buf) ho (by omega), he,
    finish_success api M argc (some buf) _ (fun _ => by simp)]
  refine ⟨_, Function.update buf 0 0, rfl, rfl, by simp [hargc], by simp, ?_, ?_⟩
  · exact ⟨fun i hi => absurd hi (by simp), by simp⟩
  · intro i hi
    simp [Function.update, hi]

/-- C4, as the code has it: in a call with `argc >= 2` and a present output
buffer, on a usable session, in which compilation or invocation fails and for
whose error value `lua_tostring` yields a string `msg`, the call returns a
nonzero status and the buffer afterwards holds the NUL-terminated C string of
`msg` (its bytes before the first NUL) cut to its first
`OUTPUT_STRING_MAXIMUM_LENGTH - 1` characters (all of it when it fits); when the
constant is at least 1, bytes at index `OUTPUT_STRING_MAXIMUM_LENGTH` and beyond
are as before; and when the C string of `msg` is non-empty and the constant is
at least 2, the copied message is non-empty (the first byte of the buffer is
not NUL), for code that fails to compile as for code that fails when called. -/
theorem mlua_failure_copies_message (api : LuaAPI L) (M : Nat) (argc : Int) (code : List Nat)
    (buf : Buffer) (p : Process L) (s e : L) (msg : List Nat) (hargc : 2 ≤ argc)
    (hs : compileState api p = some s) (hfail : FailsLeaving api s code e)
    (hmsg : (api.lua_tostring e (-1)).1 = some msg) :
    ∃ r b, mlua api M argc code (some buf) p = .ok r ∧ r.status ≠ 0 ∧ r.outstr = some b ∧
      HoldsCString b ((cstring msg).take (M - 1)) ∧
      ((cstring msg).length ≤ M - 1 → HoldsCString b (cstring msg)) ∧
      (1 ≤ M → ∀ i, M ≤ i → b i = buf i) ∧
      (cstring msg ≠ [] → 2 ≤ M → b 0 ≠ 0 ∧ (cstring msg).take (M - 1) ≠ []) := by
  obtain ⟨q, h, ho, hq, _⟩ := mlua_session M code (some buf) (by omega : 1 ≤ argc) hs
  have hoc := afterChunk_open api code ho
  have hrc := runChunk_of_failsLeaving hfail
  rw [hrc] at hoc
  have hholds := snprintf_s_holds_cleared buf M msg
  rw [hq, mlua_of_open M code (some buf) ho (by omega), hrc,
    finish_failure_buffered api M buf hoc one_ne_zero hargc]
  simp only [hmsg]
  refine ⟨_, snprintf_s (Function.update buf 0 0) M msg, rfl, one_ne_zero, rfl, hholds, ?_, ?_, ?_⟩
  · intro hfit
    rwa [List.take_of_length_le hfit] at hholds
  · intro hM i hi
    rw [snprintf_s_bounded _ _ _ _ hi]
    have : i ≠ 0 := by omega
    simp [Function.update, this]
  · intro hne h2
    have hne' : (cstring msg).take (M - 1) ≠ [] := by
      cases hc : cstring msg with
      | nil => exact absurd hc hne
      | cons a t =>
        obtain ⟨k, hk⟩ : ∃ k, M - 1 = k + 1 := ⟨M - 2, by omega⟩
        simp [hk]
    have hpos : 0 < ((cstring msg).take (M - 1)).length := List.length_pos.mpr hne'
    obtain ⟨h0, h0ne⟩ := hholds.1 0 hpos
    exact ⟨by rw [h0]; exact h0ne, hne'⟩

end


section
variable {L : Type}

theorem finish_final (api : LuaAPI L) (M : Nat) (argc : Int) (outstr : Option Buffer)
    (error : Int) {q : Process L} {h : Nat} {t : L} (ho : q.Open h t) :
    (finalProc (finish api M argc outstr error q)).Lua = q.Lua ∧
    (finalProc (finish api M argc outstr error q)).heap.length = q.heap.length ∧
    ((∃ r t', finish api M argc outstr error q = .ok r ∧ r.proc.Open h t') ∨
      (∃ q', finish api M argc outstr error q = .error (Fault.nullStore, q')) ∨
      (∃ q', finish api M argc outstr error q = .error (Fault.nullString, q'))) := by
  have hv := open_valid ho
  by_cases h2 : 2 ≤ argc
  · cases outstr with
    | none =>
      rw [finish_nullStore api M error q h2]
      exact ⟨rfl, rfl, Or.inr (Or.inl ⟨_, rfl⟩)⟩
    | some buf =>
      by_cases he : error = 0
      · rw [he, finish_success api M argc (some buf) q (fun _ => by simp)]
        exact ⟨rfl, rfl, Or.inl ⟨_, t, rfl, ho⟩⟩
      · rw [finish_failure_buffered api M buf ho he h2]
        cases hm : (api.lua_tostring t (-1)).1 with
        | none =>
          exact ⟨rfl, by simp [finalProc, Process.commit], Or.inr (Or.inr ⟨_, rfl⟩)⟩
        | some msg =>
          exact ⟨rfl, by simp [finalProc, Process.commit],
            Or.inl ⟨_, _, rfl, commit_open ((commit_valid _ _ _ _).mpr hv) _ _⟩⟩
  · by_cases he : error = 0
    · rw [he, finish_success api M argc outstr q (fun h => absurd h h2)]
      exact ⟨rfl, rfl, Or.inl ⟨_, t, rfl, ho⟩⟩
    · rw [finish_failure_unbuffered api M outstr ho he (by omega)]
      exact ⟨rfl, by simp [finalProc, Process.commit], Or.inl ⟨_, _, rfl, commit_open hv _ _⟩⟩

theorem afterChunk_frame (api : LuaAPI L) (p : Process L) (h : Nat) (s : L) (code : List Nat) :
    (afterChunk api p h s code).Lua = p.Lua ∧
      (afterChunk api p h s code).heap.length = p.heap.length := by
  simp only [afterChunk]
  split_ifs <;> simp [Process.commit]

theorem mlua_of_present_final (api : LuaAPI L) (M : Nat) {argc : Int} (code : List Nat)
    (outstr : Option Buffer) {p : Process L} {h : Nat} (hargc : 1 ≤ argc)
    (hL : p.Lua = some h) :
    (finalProc (mlua api M argc code outstr p)).Lua = some h ∧
      (finalProc (mlua api M argc code outstr p)).heap.length = p.heap.length := by
  have h1 : ¬ argc < 1 := by omega
  have hsome : ¬ (some h = none) := by simp
  cases hh : p.heap[h]? with
  | none =>
    simp only [mlua, h1, if_false, hL, hsome, pure_eq_ok, ok_bind, luaL_loadbuffer,
      Process.deref, hh, error_bind, finalProc, and_self]
  | some sl =>
    cases sl with
    | freed =>
      simp only [mlua, h1, if_false, hL, hsome, pure_eq_ok, ok_bind, luaL_loadbuffer,
        Process.deref, hh, error_bind, finalProc, and_self]
    | live s =>
      have ho : p.Open h s := ⟨hL, hh⟩
      have hfin := finish_final api M argc outstr (runChunk api s code).1
        (afterChunk_open api code ho)
      have hfr := afterChunk_frame api p h s code
      rw [mlua_of_open M code outstr ho hargc]
      exact ⟨by rw [hfin.1, hfr.1, hL], by rw [hfin.2.1, hfr.2]⟩

end


section
variable {L : Type}

theorem step_usable (api : LuaAPI L) (M : Nat) (op : Op) (p : Process L) (s : L)
    (hs : compileState api p = some s) :
    (∃ q s', step api M op p = .ok q ∧ compileState api q = some s') ∨
      (∃ q, step api M op p = .error (Fault.nullStore, q)) ∨
      (∃ q, step api M op p = .error (Fault.nullString, q)) := by
  cases op with
  | opening argc =>
    exact Or.inl ⟨opened api p, _, by simp only [step, mlua_open_eq],
      compileState_of_open (opened_open api p)⟩
  | execute argc code outstr =>
    by_cases hargc : argc < 1
    · refine Or.inl ⟨fprintf_stderr "\nNo Lua code string supplied" p, s, ?_, ?_⟩
      · simp only [step, mlua, hargc, if_true, ok_bind, pure_eq_ok]
      · simpa only [compileState, fprintf_stderr] using hs
    · have h1 : 1 ≤ argc := by omega
      obtain ⟨q, h, ho, hq, _⟩ := mlua_session M code outstr h1 hs
      have hfin := (finish_final api M argc outstr (runChunk api s code).1
        (afterChunk_open api code ho)).2.2
      simp only [step, hq, mlua_of_open M code outstr ho h1]
      rcases hfin with ⟨r, t', hr, hopen⟩ | ⟨q', hq'⟩ | ⟨q', hq'⟩
      · exact Or.inl ⟨r.proc, t', by simp only [hr, ok_bind, pure_eq_ok],
          compileState_of_open hopen⟩
      · exact Or.inr (Or.inl ⟨q', by simp only [hq', error_bind]⟩)
      · exact Or.inr (Or.inr ⟨q', by simp only [hq', error_bind]⟩)

theorem runOps_faults (api : LuaAPI L) (M : Nat) (ops : List Op) :
    ∀ (p : Process L) (s : L), compileState api p = some s →
      faultOf (runOps api M ops p) = none ∨
        faultOf (runOps api M ops p) = some Fault.nullStore ∨
        faultOf (runOps api M ops p) = some Fault.nullString := by
  induction ops with
  | nil => intro p s _; exact Or.inl rfl
  | cons op ops ih =>
    intro p s hs
    rcases step_usable api M op p s hs with ⟨q, s', hq, hs'⟩ | ⟨q, hq⟩ | ⟨q, hq⟩
    · simpa only [runOps, hq, ok_bind] using ih q s' hs'
    · exact Or.inr (Or.inl (by simp only [runOps, hq, error_bind, faultOf]))
    · exact Or.inr (Or.inr (by simp only [runOps, hq, error_bind, faultOf]))

/-- C6: in a call of `mlua` with `argc >= 1`: if `Lua` is `NULL`, the call behaves
as the same call made after `mlua_open` (a new interpreter state with the
libraries loaded is created first, and the code is compiled on it), and `Lua`
points at that new state when the call ends; if `Lua` is not `NULL`, no
interpreter state is created and `Lua` has the same value when the call ends.
In every sequence of `mlua_open` and `mlua` calls from the start-up process, no
Lua function is ever called with `NULL` as its `lua_State*`. -/
theorem mlua_session_state_machine (api : LuaAPI L) (M : Nat) :
    (∀ (argc : Int) (code : List Nat) (outstr : Option Buffer) (p : Process L),
      1 ≤ argc → p.Lua = none →
        mlua_open api 0 p = .ok (opened api p) ∧
        (opened api p).Lua = some p.heap.length ∧
        (opened api p).heap = p.heap ++ [Slot.live (api.luaL_openlibs api.luaL_newstate)] ∧
        (opened api p).trace =
          p.trace ++ [Call.luaL_newstate p.heap.length, Call.luaL_openlibs p.heap.length] ∧
        mlua api M argc code outstr p = mlua api M argc code outstr (opened api p) ∧
        (finalProc (mlua api M argc code outstr p)).Lua = some p.heap.length ∧
        (finalProc (mlua api M argc code outstr p)).heap.length = p.heap.length + 1) ∧
    (∀ (argc : Int) (code : List Nat) (outstr : Option Buffer) (p : Process L) (h : Nat),
      1 ≤ argc → p.Lua = some h →
        (finalProc (mlua api M argc code outstr p)).Lua = some h ∧
        (finalProc (mlua api M argc code outstr p)).heap.length = p.heap.length) ∧
    (∀ (ops : List Op) (fn : String),
      faultOf (runOps api M ops (Process.init : Process L)) ≠ some (Fault.nullState fn)) := by
  refine ⟨?_, ?_, ?_⟩
  · intro argc code outstr p hargc hL
    have hfr := opened_frame api p
    have hfin := mlua_of_present_final api M code outstr hargc hfr.1
    rw [← mlua_of_absent api M code outstr hL hargc] at hfin
    refine ⟨mlua_open_eq api 0 p, hfr.1, hfr.2.1, hfr.2.2,
      mlua_of_absent api M code outstr hL hargc, hfin.1, ?_⟩
    rw [hfin.2, hfr.2.1]
    simp
  · intro argc code outstr p h hargc hL
    exact mlua_of_present_final api M code outstr hargc hL
  · intro ops fn hcontra
    rcases runOps_faults api M ops (Process.init : Process L) _ rfl with h | h | h <;>
      rw [h] at hcontra <;> cases hcontra

/-- C7: when a call of `mlua` with `argc >= 1` has returned, the session handle
is the one the call used and designates the interpreter state the call left
(after a successful run, the state that running the code left); the next `mlua`
call with `argc >= 1` creates no interpreter state, keeps the handle, and runs
lines 33-34 (compile, then call) on exactly that state. -/
theorem mlua_session_persists (api : LuaAPI L) (M : Nat) (argc1 : Int) (code1 : List Nat)
    (outstr1 : Option Buffer) (argc2 : Int) (code2 : List Nat) (outstr2 : Option Buffer)
    (p : Process L) (s : L) (h1 : 1 ≤ argc1) (h2 : 1 ≤ argc2)
    (hs : compileState api p = some s) (hdef : Defined api argc1 outstr1 s code1) :
    ∃ r h, mlua api M argc1 code1 outstr1 p = .ok r ∧
      (p.Lua = some h ∨ (p.Lua = none ∧ h = p.heap.length)) ∧
      r.proc.Open h (stateAfter api argc1 s code1) ∧
      ((api.luaL_loadbuffer s code1 "mlua(code)").1 = 0 →
        (api.lua_pcall (api.luaL_loadbuffer s code1 "mlua(code)").2 0 0 0).1 = 0 →
        stateAfter api argc1 s code1 =
          (api.lua_pcall (api.luaL_loadbuffer s code1 "mlua(code)").2 0 0 0).2) ∧
      compileState api r.proc = some (stateAfter api argc1 s code1) ∧
      mlua api M argc2 code2 outstr2 r.proc =
        finish api M argc2 outstr2 (runChunk api (stateAfter api argc1 s code1) code2).1
          (afterChunk api r.proc h (stateAfter api argc1 s code1) code2) ∧
      (finalProc (mlua api M argc2 code2 outstr2 r.proc)).Lua = some h ∧
      (finalProc (mlua api M argc2 code2 outstr2 r.proc)).heap.length = r.proc.heap.length := by
  obtain ⟨r, h, hr, _, hopen, hh, _⟩ := mlua_returns M h1 hs hdef
  have hfin := mlua_of_present_final api M code2 outstr2 h2 hopen.1
  refine ⟨r, h, hr, hh, hopen, ?_, compileState_of_open hopen,
    mlua_of_open M code2 outstr2 hopen h2, hfin.1, hfin.2⟩
  intro hl hc
  simp only [stateAfter, runChunk_of_success hl hc, if_true]

end


/-! ## The claims on the miniature interpreter -/

section

open Mini

/-- C2 fails as stated: for the code `x=`, which does not compile, the loader
returns 3 and `mlua` returns 1; for `error('boom')`, which fails when called,
`lua_pcall` returns 2 and `mlua` returns 1. -/
theorem mlua_status_is_not_interpreter_code :
    (Mini.api.luaL_loadbuffer (Mini.api.luaL_openlibs Mini.api.luaL_newstate) (bytes "x=")
        "mlua(code)").1 = 3 ∧
    statusOf (mlua Mini.api 16 1 (bytes "x=") none Process.init) = some 1 ∧
    statusOf (mlua Mini.api 16 1 (bytes "x=") none Process.init) ≠ some 3 ∧
    (Mini.api.luaL_loadbuffer (Mini.api.luaL_openlibs Mini.api.luaL_newstate)
        (bytes "error('boom')") "mlua(code)").1 = 0 ∧
    (Mini.api.lua_pcall (Mini.api.luaL_loadbuffer
        (Mini.api.luaL_openlibs Mini.api.luaL_newstate) (bytes "error('boom')")
        "mlua(code)").2 0 0 0).1 = 2 ∧
    statusOf (mlua Mini.api 16 1 (bytes "error('boom')") none Process.init) = some 1 ∧
    statusOf (mlua Mini.api 16 1 (bytes "error('boom')") none Process.init) ≠ some 2 := by
  decide

/-- C2 as amended, on the code `x=` with a buffer supplied. -/
theorem mlua_failure_status_is_one_witness :
    (1 : Int) ≤ 2 ∧
    compileState Mini.api Process.init = some (Mini.api.luaL_openlibs Mini.api.luaL_newstate) ∧
    ∃ r, mlua Mini.api 16 2 (bytes "x=") (some sevens) Process.init = .ok r ∧ r.status = 1 :=
  ⟨by decide, rfl,
    mlua_failure_status_is_one Mini.api 16 2 (bytes "x=") (some sevens) Process.init _ _
      (by decide) rfl (Or.inl ⟨by decide, rfl⟩) (fun _ => ⟨by simp, fun _ => by decide⟩)⟩

/-- C3 on the code `x=1`, with a buffer full of sevens. -/
theorem mlua_success_empties_buffer_witness :
    (2 : Int) ≤ 2 ∧
    (Mini.api.luaL_loadbuffer (Mini.api.luaL_openlibs Mini.api.luaL_newstate) (bytes "x=1")
        "mlua(code)").1 = 0 ∧
    ∃ r b, mlua Mini.api 16 2 (bytes "x=1") (some sevens) Process.init = .ok r ∧
      r.status = 0 ∧ r.outstr = some b ∧ b 0 = 0 ∧ HoldsCString b [] ∧
      ∀ i, i ≠ 0 → b i = sevens i :=
  ⟨by decide, by decide,
    mlua_success_empties_buffer Mini.api 16 2 (bytes "x=1") sevens Process.init _ (by decide)
      rfl (by decide) (by decide)⟩

/-- C4 fails as stated.  (1) `error({})` raises a table, `lua_pcall` returns 2,
`lua_tostring` returns `NULL` for the value on top of the stack, and line 39
passes that `NULL` to `%s`: no string form of the error value reaches the
buffer and the call does not return.  (2) For a raised string with a NUL byte
inside, here `a`, NUL, `b`, which fits the capacity 16, `%s` stops at the NUL:
the buffer holds `a` alone; for the raised string NUL, `a` it holds the empty
string.  (3) With the constant 0 the byte at index 0 is written all the same
(line 36).  (4) With the constant 1 the code `x=` fails to compile, its message
is `syntax error`, and the buffer holds the empty string.  (5) With a loader
whose message is empty, the code `x=` fails to compile and the buffer holds the
empty string at capacity 16. -/
theorem mlua_table_error_has_no_message :
    ((Mini.api.lua_pcall (Mini.api.luaL_loadbuffer
        (Mini.api.luaL_openlibs Mini.api.luaL_newstate) (bytes "error({})")
        "mlua(code)").2 0 0 0).1 = 2 ∧
     (Mini.api.lua_tostring (Mini.api.lua_pcall (Mini.api.luaL_loadbuffer
        (Mini.api.luaL_openlibs Mini.api.luaL_newstate) (bytes "error({})")
        "mlua(code)").2 0 0 0).2 (-1)).1 = none ∧
     faultOf (mlua Mini.api 16 2 (bytes "error({})") (some sevens) Process.init)
       = some Fault.nullString ∧
     statusOf (mlua Mini.api 16 2 (bytes "error({})") (some sevens) Process.init) = none) ∧
    ((Mini.api.lua_tostring (Mini.api.lua_pcall (Mini.api.luaL_loadbuffer
        (Mini.api.luaL_openlibs Mini.api.luaL_newstate)
        (bytes "error('a" ++ 0 :: bytes "b')") "mlua(code)").2 0 0 0).2 (-1)).1
       = some [97, 0, 98] ∧
     outBytes 5 (mlua Mini.api 16 2 (bytes "error('a" ++ 0 :: bytes "b')") (some sevens)
       Process.init) = some [97, 0, 7, 7, 7] ∧
     (Mini.api.lua_tostring (Mini.api.lua_pcall (Mini.api.luaL_loadbuffer
        (Mini.api.luaL_openlibs Mini.api.luaL_newstate)
        (bytes "error('" ++ 0 :: bytes "a')") "mlua(code)").2 0 0 0).2 (-1)).1
       = some [0, 97] ∧
     outBytes 3 (mlua Mini.api 16 2 (bytes "error('" ++ 0 :: bytes "a')") (some sevens)
       Process.init) = some [0, 7, 7]) ∧
    (sevens 0 = 7 ∧
     outBytes 2 (mlua Mini.api 0 2 (bytes "x=") (some sevens) Process.init) = some [0, 7]) ∧
    ((Mini.api.luaL_loadbuffer (Mini.api.luaL_openlibs Mini.api.luaL_newstate) (bytes "x=")
        "mlua(code)").1 = 3 ∧
     (Mini.api.lua_tostring (Mini.api.luaL_loadbuffer
        (Mini.api.luaL_openlibs Mini.api.luaL_newstate) (bytes "x=") "mlua(code)").2 (-1)).1
       = some (bytes "syntax error") ∧
     statusOf (mlua Mini.api 1 2 (bytes "x=") (some sevens) Process.init) = some 1 ∧
     outBytes 2 (mlua Mini.api 1 2 (bytes "x=") (some sevens) Process.init) = some [0, 7]) ∧
    ((Mini.mute.luaL_loadbuffer (Mini.mute.luaL_openlibs Mini.mute.luaL_newstate) (bytes "x=")
        "mlua(code)").1 = 3 ∧
     (Mini.mute.lua_tostring (Mini.mute.luaL_loadbuffer
        (Mini.mute.luaL_openlibs Mini.mute.luaL_newstate) (bytes "x=") "mlua(code)").2 (-1)).1
       = some [] ∧
     statusOf (mlua Mini.mute 16 2 (bytes "x=") (some sevens) Process.init) = some 1 ∧
     outBytes 2 (mlua Mini.mute 16 2 (bytes "x=") (some sevens) Process.init) = some [0, 7]) := by
  decide

/-- C4 as amended, on the code `x=` with a capacity of 4: the message
`syntax error` is cut to `syn`. -/
theorem mlua_failure_copies_message_witness :
    (2 : Int) ≤ 2 ∧
    (cstring (bytes "syntax error")).take (4 - 1) = bytes "syn" ∧
    ∃ r b, mlua Mini.api 4 2 (bytes "x=") (some sevens) Process.init = .ok r ∧
      r.status ≠ 0 ∧ r.outstr = some b ∧
      HoldsCString b ((cstring (bytes "syntax error")).take (4 - 1)) ∧
      ((cstring (bytes "syntax error")).length ≤ 4 - 1 →
        HoldsCString b (cstring (bytes "syntax error"))) ∧
      (1 ≤ 4 → ∀ i, 4 ≤ i → b i = sevens i) ∧
      (cstring (bytes "syntax error") ≠ [] → 2 ≤ 4 →
        b 0 ≠ 0 ∧ (cstring (bytes "syntax error")).take (4 - 1) ≠ []) :=
  ⟨by decide, by decide,
    mlua_failure_copies_message Mini.api 4 2 (bytes "x=") sevens Process.init _ _
      (bytes "syntax error") (by decide) rfl (Or.inl ⟨by decide, rfl⟩) (by decide)⟩

/-- C6 on the miniature interpreter: the first call creates state 0, the second
reuses it. -/
theorem mlua_session_state_machine_witness :
    (finalProc (mlua Mini.api 16 1 (bytes "x=1") none Process.init)).Lua = some 0 ∧
    (finalProc (mlua Mini.api 16 1 (bytes "x=1") none Process.init)).heap.length = 1 ∧
    (finalProc (mlua Mini.api 16 1 (bytes "x=") none (opened Mini.api Process.init))).Lua
      = some 0 ∧
    (finalProc (mlua Mini.api 16 1 (bytes "x=") none (opened Mini.api Process.init))).heap.length
      = 1 ∧
    faultOf (runOps Mini.api 16 [Op.execute 1 (bytes "x=1") none, Op.opening 0,
      Op.execute 2 (bytes "x=") (some sevens)] Process.init) ≠ some (Fault.nullState "lua_pcall") :=
  ⟨((mlua_session_state_machine Mini.api 16).1 1 (bytes "x=1") none Process.init
      (by decide) rfl).2.2.2.2.2.1,
    ((mlua_session_state_machine Mini.api 16).1 1 (bytes "x=1") none Process.init
      (by decide) rfl).2.2.2.2.2.2,
    ((mlua_session_state_machine Mini.api 16).2.1 1 (bytes "x=") none
      (opened Mini.api Process.init) 0 (by decide) rfl).1,
    ((mlua_session_state_machine Mini.api 16).2.1 1 (bytes "x=") none
      (opened Mini.api Process.init) 0 (by decide) rfl).2,
    (mlua_session_state_machine Mini.api 16).2.2 _ _⟩

/-- C7 on the miniature interpreter: after `x=1`, the state on which the next
call compiles its code has global `x` (byte 120) equal to 1. -/
theorem mlua_session_persists_witness :
    (stateAfter Mini.api 1 (Mini.api.luaL_openlibs Mini.api.luaL_newstate)
      (bytes "x=1")).global 120 = some 1 ∧
    ∃ r h, mlua Mini.api 16 1 (bytes "x=1") none Process.init = .ok r ∧
      ((Process.init : Process Mini.State).Lua = some h ∨
        ((Process.init : Process Mini.State).Lua = none ∧
          h = (Process.init : Process Mini.State).heap.length)) ∧
      r.proc.Open h (stateAfter Mini.api 1 (Mini.api.luaL_openlibs Mini.api.luaL_newstate)
        (bytes "x=1")) ∧
      ((Mini.api.luaL_loadbuffer (Mini.api.luaL_openlibs Mini.api.luaL_newstate) (bytes "x=1")
          "mlua(code)").1 = 0 →
        (Mini.api.lua_pcall (Mini.api.luaL_loadbuffer
          (Mini.api.luaL_openlibs Mini.api.luaL_newstate) (bytes "x=1") "mlua(code)").2
          0 0 0).1 = 0 →
        stateAfter Mini.api 1 (Mini.api.luaL_openlibs Mini.api.luaL_newstate) (bytes "x=1") =
          (Mini.api.lua_pcall (Mini.api.luaL_loadbuffer
            (Mini.api.luaL_openlibs Mini.api.luaL_newstate) (bytes "x=1") "mlua(code)").2
            0 0 0).2) ∧
      compileState Mini.api r.proc =
        some (stateAfter Mini.api 1 (Mini.api.luaL_openlibs Mini.api.luaL_newstate)
          (bytes "x=1")) ∧
      mlua Mini.api 16 2 (bytes "y=2") (some sevens) r.proc =
        finish Mini.api 16 2 (some sevens)
          (runChunk Mini.api (stateAfter Mini.api 1
            (Mini.api.luaL_openlibs Mini.api.luaL_newstate) (bytes "x=1")) (bytes "y=2")).1
          (afterChunk Mini.api r.proc h (stateAfter Mini.api 1
            (Mini.api.luaL_openlibs Mini.api.luaL_newstate) (bytes "x=1")) (bytes "y=2")) ∧
      (finalProc (mlua Mini.api 16 2 (bytes "y=2") (some sevens) r.proc)).Lua = some h ∧
      (finalProc (mlua Mini.api 16 2 (bytes "y=2") (some sevens) r.proc)).heap.length
        = r.proc.heap.length :=
  ⟨by decide,
    mlua_session_persists Mini.api 16 1 (bytes "x=1") none 2 (bytes "y=2") (some sevens)
      Process.init _ (by decide) (by decide) rfl (fun h => absurd h (by decide))⟩

end

end MLua
